import Mathlib

/-!
# Parking ledger (`src/main.cpp`)

A shallow embedding of `VehiclePlate`, `ParkingException`, `Parking<Clock>` and `TestClock`.

Modelling conventions.

* A `Clock::time_point` is the integer count of clock ticks since the clock's epoch and a
  `Clock::duration` is an integer count of ticks.  The tick length is a property of the `Clock`
  type argument (for `TestClock` it is that of `chrono::system_clock`, which the standard library
  fixes); it is the parameter `tps`, the number of ticks in one second.  The source only compiles
  when a `chrono::seconds` value converts implicitly to `Clock::duration`, that is when one second
  is a whole number of ticks.
* `chrono::duration_cast<chrono::seconds>` on an integer tick count is division truncating toward
  zero.
* Every `Clock::now()` evaluated during one member call yields the same instant, the argument
  `now` (this is what `TestClock` does between two `SetNow` calls).
* `std::unordered_map<VehiclePlate, T, VehiclePlateHasher>` is an association list without
  duplicate keys (`AList`); keys are compared with `VehiclePlate::operator==`, which compares the
  three letters, the digits and the region, that is structural equality of the record.
* A member function that may throw returns the outcome together with the object state after the
  call, so that the state left behind by a throwing call can be inspected.
* An amount is an `int64_t`: `count() * cost_per_second_` and `+=` on an amount are computed in
  64-bit two's-complement arithmetic, the exact result reduced modulo `2^64` into the range of
  `int64_t` (`wrap64`).  This is what the compiled code returns when a product or a sum leaves the
  range; inside the range it is the exact result.  Tick counts (`Clock::time_point`,
  `Clock::duration`) belong to the `Clock` argument and are not bounded, and the rate
  `cost_per_second_`, an `int`, is any integer.
* A `char` is a `Char`, compared by its character code; `operator==` and `operator<` of
  `VehiclePlate` follow the comparisons of `std::tuple` and `std::array` applied to `AsTuple()`.
* A run of the ledger is a list of `Call`s, each with the instant the clock shows during it; a
  call that throws leaves the ledger in use, as the `try`/`catch` blocks of `main` do.
-/

/-- The class `VehiclePlate`: `array<char, 3> letters_`, `int digits_`, `int region_`. -/
structure VehiclePlate where
  letters_ : Char × Char × Char
  digits_ : Int
  region_ : Int
  deriving DecidableEq

namespace VehiclePlate

/-- The constructor `VehiclePlate(char l0, char l1, int digits, char l2, int region)`. -/
def make (l0 l1 : Char) (digits : Int) (l2 : Char) (region : Int) : VehiclePlate :=
  { letters_ := (l0, l1, l2), digits_ := digits, region_ := region }

/-- The member `VehiclePlate::Hash`. -/
def Hash (plate : VehiclePlate) : Int := plate.digits_

end VehiclePlate

/-- The type `struct ParkingException {}`, the one exception type thrown by `Park` and
`Withdraw`. -/
structure ParkingException where
  deriving DecidableEq

/-- The type `Clock::time_point`, in clock ticks since the epoch. -/
abbrev TimePoint := Int

/-- The type `Clock::duration`, in clock ticks. -/
abbrev Duration := Int

/-- The value `chrono::duration_cast<chrono::seconds>(d).count()` for a tick count `d`. -/
def duration_cast_seconds (tps : Nat) (d : Duration) : Int := Int.tdiv d (tps : Int)

/-- The implicit conversion of a `chrono::seconds` value to `Clock::duration`. -/
def seconds_to_duration (tps : Nat) (s : Int) : Duration := s * (tps : Int)

/-- The value an `int64_t` holds after an arithmetic operation whose exact result is `x`: `x`
reduced modulo `2^64` into the range from `-2^63` to `2^63 - 1`. -/
def wrap64 (x : Int) : Int :=
  (x + 9223372036854775808) % 18446744073709551616 - 9223372036854775808

/-- The product of two `int64_t` values (an `int` operand is converted first). -/
def mul64 (a b : Int) : Int := wrap64 (a * b)

/-- The sum of two `int64_t` values. -/
def add64 (a b : Int) : Int := wrap64 (a + b)

/-- The integer `x` lies in the range of `int64_t`. -/
abbrev inInt64 (x : Int) : Prop := -9223372036854775808 ≤ x ∧ x < 9223372036854775808

/-- The type `unordered_map<VehiclePlate, int64_t, VehiclePlateHasher>`. -/
abbrev Bills := AList (fun _ : VehiclePlate => Int)

/-- The class `Parking<Clock>`: its three data members. -/
structure Parking where
  cost_per_second_ : Int
  now_parked_ : AList (fun _ : VehiclePlate => TimePoint)
  complete_parks_ : AList (fun _ : VehiclePlate => Duration)

namespace Parking

/-- The constructor `Parking(int cost_per_second)`: both maps start empty. -/
def new (cost_per_second : Int) : Parking :=
  { cost_per_second_ := cost_per_second, now_parked_ := ∅, complete_parks_ := ∅ }

/-- The member `Parking::Park`: throws when `car` is found in `now_parked_`, otherwise stores
`now_parked_[car] = Clock::now()`. -/
def Park (p : Parking) (now : TimePoint) (car : VehiclePlate) :
    Except ParkingException Unit × Parking :=
  if (p.now_parked_.lookup car).isSome then
    (Except.error {}, p)
  else
    (Except.ok (), { p with now_parked_ := p.now_parked_.insert car now })

/-- The member `Parking::Withdraw`.  The statement `complete_parks_[car] += x` creates a zero
entry when there is none, and `x`, a whole number of seconds, is converted to `Duration`. -/
def Withdraw (tps : Nat) (p : Parking) (now : TimePoint) (car : VehiclePlate) :
    Except ParkingException Unit × Parking :=
  match p.now_parked_.lookup car with
  | none => (Except.error {}, p)
  | some begin_time =>
    let added : Duration := seconds_to_duration tps (duration_cast_seconds tps (now - begin_time))
    let old : Duration := (p.complete_parks_.lookup car).getD 0
    (Except.ok (),
      { p with
        complete_parks_ := p.complete_parks_.insert car (old + added)
        now_parked_ := p.now_parked_.erase car })

/-- The member `Parking::GetCurrentBill`, which is `const`: the amount and the (same) object
state.  The local `cost` is an `int64_t`; each `count() * cost_per_second_` is an `int64_t`
product and each `cost +=` an `int64_t` sum. -/
def GetCurrentBill (tps : Nat) (p : Parking) (now : TimePoint) (car : VehiclePlate) :
    Int × Parking :=
  let cost : Int := 0
  let cost : Int :=
    match p.now_parked_.lookup car with
    | some begin_time =>
      add64 cost (mul64 (duration_cast_seconds tps (now - begin_time)) p.cost_per_second_)
    | none => cost
  let cost : Int :=
    match p.complete_parks_.lookup car with
    | some duration => add64 cost (mul64 (duration_cast_seconds tps duration) p.cost_per_second_)
    | none => cost
  (cost, p)

/-- The statement `charges_for_all_cars[car] += amount` on `int64_t` values (a missing entry
starts at `0`). -/
def addCharge (charges : Bills) (car : VehiclePlate) (amount : Int) : Bills :=
  charges.insert car (add64 ((charges.lookup car).getD 0) amount)

/-- Body of the first loop of `EndPeriodAndGetBills`, over the entries of `complete_parks_`. -/
def settledStep (tps : Nat) (rate : Int) (charges : Bills)
    (e : Sigma (fun _ : VehiclePlate => Duration)) : Bills :=
  if duration_cast_seconds tps e.2 ≠ 0 then
    addCharge charges e.1 (mul64 (duration_cast_seconds tps e.2) rate)
  else charges

/-- Body of the second loop of `EndPeriodAndGetBills`, over the entries of `now_parked_`:
the charge is added and the entry's `begin_time` is overwritten in place. -/
def activeStep (tps : Nat) (rate : Int) (now : TimePoint)
    (acc : Bills × AList (fun _ : VehiclePlate => TimePoint))
    (e : Sigma (fun _ : VehiclePlate => TimePoint)) :
    Bills × AList (fun _ : VehiclePlate => TimePoint) :=
  (addCharge acc.1 e.1 (mul64 (duration_cast_seconds tps (now - e.2)) rate),
    acc.2.replace e.1 now)

/-- The member `Parking::EndPeriodAndGetBills`: the returned map and the object state after the
call. -/
def EndPeriodAndGetBills (tps : Nat) (p : Parking) (now : TimePoint) : Bills × Parking :=
  let charges_for_all_cars : Bills :=
    p.complete_parks_.entries.foldl (settledStep tps p.cost_per_second_) ∅
  let r := p.now_parked_.entries.foldl (activeStep tps p.cost_per_second_ now)
    (charges_for_all_cars, p.now_parked_)
  (r.1, { p with complete_parks_ := ∅, now_parked_ := r.2 })

/-- Whole seconds of the open session of `car` at `now`: `now - active[car]` cast to seconds when
`car` has an entry in `now_parked_`, and `0` otherwise. -/
def activeElapsedSeconds (tps : Nat) (p : Parking) (now : TimePoint) (car : VehiclePlate) : Int :=
  match p.now_parked_.lookup car with
  | some begin_time => duration_cast_seconds tps (now - begin_time)
  | none => 0

/-- Whole seconds settled for `car`: its `complete_parks_` entry cast to seconds, and `0` when it
has no entry. -/
def settledSeconds (tps : Nat) (p : Parking) (car : VehiclePlate) : Int :=
  match p.complete_parks_.lookup car with
  | some duration => duration_cast_seconds tps duration
  | none => 0

end Parking

/-- The value of `TestClock::now()` when `start_point_` is `start` and `current_time_` is `current_time`. -/
def TestClock.now (tps : Nat) (start : TimePoint) (current_time : Int) : TimePoint :=
  start + seconds_to_duration tps current_time

/-! The plates used by `main`. -/

/-- The plate `{'A', 'A', 111, 'A', 99}`. -/
def plateA : VehiclePlate := VehiclePlate.make 'A' 'A' 111 'A' 99

/-- The plate `{'B', 'B', 222, 'B', 99}`. -/
def plateB : VehiclePlate := VehiclePlate.make 'B' 'B' 222 'B' 99

/-- The plate `{'C', 'C', 333, 'C', 99}`. -/
def plateC : VehiclePlate := VehiclePlate.make 'C' 'C' 333 'C' 99

/-! The calls of `main`, in order, for a `TestClock` with `tps` ticks a second whose
`start_point_` is `start`.  Each definition is the outcome of one call together with the ledger
after it. -/

/-- First call: `Parking<TestClock> parking(10); SetNow(10); parking.Park(A)`. -/
def mainPark1 (tps : Nat) (start : TimePoint) : Except ParkingException Unit × Parking :=
  Parking.Park (Parking.new 10) (TestClock.now tps start 10) plateA

/-- Second call: `SetNow(20); parking.Withdraw(A)`. -/
def mainWithdraw2 (tps : Nat) (start : TimePoint) : Except ParkingException Unit × Parking :=
  Parking.Withdraw tps (mainPark1 tps start).2 (TestClock.now tps start 20) plateA

/-- Third call: `parking.Park(B)`, still at 20. -/
def mainPark3 (tps : Nat) (start : TimePoint) : Except ParkingException Unit × Parking :=
  Parking.Park (mainWithdraw2 tps start).2 (TestClock.now tps start 20) plateB

/-- Fourth call: `SetNow(40); parking.Park(A)`. -/
def mainPark4 (tps : Nat) (start : TimePoint) : Except ParkingException Unit × Parking :=
  Parking.Park (mainPark3 tps start).2 (TestClock.now tps start 40) plateA

/-- Fifth call: `SetNow(50); parking.Withdraw(B)`. -/
def mainWithdraw5 (tps : Nat) (start : TimePoint) : Except ParkingException Unit × Parking :=
  Parking.Withdraw tps (mainPark4 tps start).2 (TestClock.now tps start 50) plateB

/-- Sixth call: `SetNow(70); parking.EndPeriodAndGetBills()`. -/
def mainEndPeriod6 (tps : Nat) (start : TimePoint) : Bills × Parking :=
  Parking.EndPeriodAndGetBills tps (mainWithdraw5 tps start).2 (TestClock.now tps start 70)

/-- Seventh call: `SetNow(80); parking.EndPeriodAndGetBills()`. -/
def mainEndPeriod7 (tps : Nat) (start : TimePoint) : Bills × Parking :=
  Parking.EndPeriodAndGetBills tps (mainEndPeriod6 tps start).2 (TestClock.now tps start 80)

/-- A ledger with the largest rate an `int` holds, `2147483647`, in which plate A was parked at
tick `0` (a clock ticking once a second). -/
def ledgerMaxRate : Parking := (Parking.Park (Parking.new 2147483647) 0 plateA).2

/-- The ledger of `main` after its first call: rate `10`, plate A parked at tick `10`
(a clock ticking once a second whose start point is tick `0`). -/
def ledgerAfterFirstPark : Parking := (Parking.Park (Parking.new 10) 10 plateA).2


namespace VehiclePlate

/-- The private member `VehiclePlate::AsTuple`, `tie(letters_, digits_, region_)`. -/
def AsTuple (plate : VehiclePlate) : (Char × Char × Char) × Int × Int :=
  (plate.letters_, plate.digits_, plate.region_)

/-- Equality of two `array<char, 3>`: `std::equal` over the three elements. -/
def arrayEq (a b : Char × Char × Char) : Bool :=
  decide (a.1 = b.1) && decide (a.2.1 = b.2.1) && decide (a.2.2 = b.2.2)

/-- Order of two `array<char, 3>`: `std::lexicographical_compare`, which walks the elements,
answers `true` at the first `a[i] < b[i]`, `false` at the first `b[i] < a[i]`, and `false` when
the arrays are exhausted together.  A `char` is compared by its character code. -/
def arrayLess (a b : Char × Char × Char) : Bool :=
  if a.1 < b.1 then true
  else if b.1 < a.1 then false
  else if a.2.1 < b.2.1 then true
  else if b.2.1 < a.2.1 then false
  else if a.2.2 < b.2.2 then true
  else false

/-- Equality of the tuples made by `tie`: every component equal. -/
def tupleEq (a b : (Char × Char × Char) × Int × Int) : Bool :=
  arrayEq a.1 b.1 && decide (a.2.1 = b.2.1) && decide (a.2.2 = b.2.2)

/-- Order of the tuples made by `tie`: lexicographic, each component compared with `<` in both
directions before the next one is looked at. -/
def tupleLess (a b : (Char × Char × Char) × Int × Int) : Bool :=
  if arrayLess a.1 b.1 then true
  else if arrayLess b.1 a.1 then false
  else if a.2.1 < b.2.1 then true
  else if b.2.1 < a.2.1 then false
  else decide (a.2.2 < b.2.2)

/-- The member `VehiclePlate::operator==`. -/
def opEq (plate other : VehiclePlate) : Bool := tupleEq plate.AsTuple other.AsTuple

/-- The member `VehiclePlate::operator<`. -/
def opLess (plate other : VehiclePlate) : Bool := tupleLess plate.AsTuple other.AsTuple

/-- The five fields of a plate in comparison order, as an element of the lexicographic product
(used to compare `operator<` with the lexicographic order). -/
def lexKey (plate : VehiclePlate) : Lex (Char × Lex (Char × Lex (Char × Lex (Int × Int)))) :=
  toLex (plate.letters_.1, toLex (plate.letters_.2.1, toLex (plate.letters_.2.2,
    toLex (plate.digits_, plate.region_))))

end VehiclePlate

/-- One call of a public member function of `Parking`, with the instant that `Clock::now()` shows
during the call. -/
inductive Call where
  | Park (now : TimePoint) (car : VehiclePlate)
  | Withdraw (now : TimePoint) (car : VehiclePlate)
  | GetCurrentBill (now : TimePoint) (car : VehiclePlate)
  | EndPeriodAndGetBills (now : TimePoint)

namespace Call

/-- The instant of a call. -/
def now : Call → TimePoint
  | Call.Park t _ => t
  | Call.Withdraw t _ => t
  | Call.GetCurrentBill t _ => t
  | Call.EndPeriodAndGetBills t => t

end Call

namespace Parking

/-- The ledger after one call; an exception thrown by the call is caught by the caller, as `main`
does, and the ledger lives on. -/
def call (tps : Nat) (p : Parking) : Call → Parking
  | Call.Park now car => (Park p now car).2
  | Call.Withdraw now car => (Withdraw tps p now car).2
  | Call.GetCurrentBill now car => (GetCurrentBill tps p now car).2
  | Call.EndPeriodAndGetBills now => (EndPeriodAndGetBills tps p now).2

/-- The ledger after a sequence of calls, first call first. -/
def calls (tps : Nat) (p : Parking) (cs : List Call) : Parking := cs.foldl (call tps) p

/-- The instants of the calls are non-decreasing and none is earlier than `t`. -/
def chronologicalFrom (t : TimePoint) : List Call → Bool
  | [] => true
  | c :: cs => decide (t ≤ c.now) && chronologicalFrom c.now cs

/-- The instants of the calls are non-decreasing along the sequence. -/
def chronological : List Call → Bool
  | [] => true
  | c :: cs => chronologicalFrom c.now cs

/-- The instant of the last call of the sequence, `t` when there is no call. -/
def lastNow (t : TimePoint) : List Call → TimePoint
  | [] => t
  | c :: cs => lastNow c.now cs

/-- The settled duration of `car`, taken as `0` when it has no entry in `complete_parks_`. -/
def settledDuration (p : Parking) (car : VehiclePlate) : Duration :=
  (p.complete_parks_.lookup car).getD 0

end Parking

namespace Stays

end Stays

/-- The calls of `main` up to the second settlement, with the instants in seconds as given to
`SetNow`. -/
def mainCalls : List Call :=
  [Call.Park 10 plateA, Call.Withdraw 20 plateA, Call.Park 20 plateB,
    Call.GetCurrentBill 40 plateA, Call.GetCurrentBill 40 plateB, Call.Park 40 plateA,
    Call.GetCurrentBill 50 plateA, Call.GetCurrentBill 50 plateB, Call.GetCurrentBill 50 plateC,
    Call.Withdraw 50 plateB, Call.EndPeriodAndGetBills 70, Call.EndPeriodAndGetBills 80]

namespace Parking

end Parking

/-! ### Arithmetic of `int64_t` -/

theorem wrap64_of_inInt64 {x : Int} (h : inInt64 x) : wrap64 x = x := by
  obtain ⟨h1, h2⟩ := h
  unfold wrap64
  omega

theorem wrap64_zero : wrap64 0 = 0 := by decide

theorem wrap64_add_left (x y : Int) : wrap64 (wrap64 x + y) = wrap64 (x + y) := by
  unfold wrap64
  omega

theorem wrap64_add_right (x y : Int) : wrap64 (x + wrap64 y) = wrap64 (x + y) := by
  unfold wrap64
  omega

theorem wrap64_wrap64 (x : Int) : wrap64 (wrap64 x) = wrap64 x := by
  unfold wrap64
  omega

namespace Parking

/-! ### Map lemmas -/

theorem lookup_addCharge (ch : Bills) (car v : VehiclePlate) (x : Int) :
    (addCharge ch car x).lookup v
      = if v = car then some (add64 ((ch.lookup car).getD 0) x) else ch.lookup v := by
  unfold addCharge
  by_cases h : v = car
  · subst h
    simp [AList.lookup_insert]
  · simp [h, AList.lookup_insert_ne h]

theorem dlookup_kreplace_const {γ : Type} (a v : VehiclePlate) (b : γ) :
    ∀ l : List (Sigma (fun _ : VehiclePlate => γ)),
      List.dlookup v (List.kreplace a b l)
        = if v = a ∧ a ∈ l.keys then some b else List.dlookup v l
  | [] => by simp [List.kreplace]
  | ⟨k, c⟩ :: t => by
    have ih := dlookup_kreplace_const a v b t
    by_cases hak : a = k
    · subst hak
      have : List.kreplace a b (⟨a, c⟩ :: t) = ⟨a, b⟩ :: t := by
        exact List.lookmap_cons_some _ t (by simp)
      rw [this]
      by_cases hva : v = a
      · subst hva
        simp [List.dlookup_cons_eq]
      · simp [hva, List.dlookup_cons_ne]
    · have : List.kreplace a b (⟨k, c⟩ :: t) = ⟨k, c⟩ :: List.kreplace a b t := by
        exact List.lookmap_cons_none _ t (by simp [hak])
      rw [this]
      by_cases hvk : v = k
      · subst hvk
        have hva : ¬ v = a := fun h => hak h.symm
        simp [List.dlookup_cons_eq, hva]
      · rw [List.dlookup_cons_ne _ _ hvk, List.dlookup_cons_ne _ _ hvk, ih]
        simp [List.keys_cons, hak]

theorem lookup_replace_const {γ : Type} (s : AList (fun _ : VehiclePlate => γ))
    (a v : VehiclePlate) (b : γ) :
    (s.replace a b).lookup v = if v = a ∧ a ∈ s then some b else s.lookup v := by
  have h := dlookup_kreplace_const a v b s.entries
  simpa [AList.lookup, AList.replace, AList.mem_keys, AList.keys] using h

/-! ### The two loops of `EndPeriodAndGetBills` -/

theorem lookup_foldl_settledStep (tps : Nat) (rate : Int) (v : VehiclePlate) :
    ∀ (l : List (Sigma (fun _ : VehiclePlate => Duration))), l.NodupKeys → ∀ acc : Bills,
      (l.foldl (settledStep tps rate) acc).lookup v =
        match List.dlookup v l with
        | some d =>
          if duration_cast_seconds tps d ≠ 0 then
            some (add64 ((acc.lookup v).getD 0) (mul64 (duration_cast_seconds tps d) rate))
          else acc.lookup v
        | none => acc.lookup v
  | [], _, acc => by simp
  | ⟨k, d⟩ :: t, hl, acc => by
    have hnd := List.nodupKeys_cons.1 hl
    rw [List.foldl_cons, lookup_foldl_settledStep tps rate v t hnd.2]
    by_cases hvk : v = k
    · subst hvk
      have hnone : List.dlookup v t = none := List.dlookup_eq_none.2 hnd.1
      rw [hnone, List.dlookup_cons_eq]
      by_cases hz : duration_cast_seconds tps d = 0
      · simp [settledStep, hz]
      · simp [settledStep, hz, lookup_addCharge]
    · rw [List.dlookup_cons_ne _ _ hvk]
      have hacc : (settledStep tps rate acc ⟨k, d⟩).lookup v = acc.lookup v := by
        unfold settledStep
        split
        · simp [lookup_addCharge, hvk]
        · rfl
      rw [hacc]

theorem lookup_foldl_activeStep_fst (tps : Nat) (rate : Int) (now : TimePoint)
    (v : VehiclePlate) :
    ∀ (l : List (Sigma (fun _ : VehiclePlate => TimePoint))), l.NodupKeys →
      ∀ acc : Bills × AList (fun _ : VehiclePlate => TimePoint),
      (l.foldl (activeStep tps rate now) acc).1.lookup v =
        match List.dlookup v l with
        | some begin_time =>
          some (add64 ((acc.1.lookup v).getD 0)
            (mul64 (duration_cast_seconds tps (now - begin_time)) rate))
        | none => acc.1.lookup v
  | [], _, acc => by simp
  | ⟨k, b⟩ :: t, hl, acc => by
    have hnd := List.nodupKeys_cons.1 hl
    rw [List.foldl_cons, lookup_foldl_activeStep_fst tps rate now v t hnd.2]
    by_cases hvk : v = k
    · subst hvk
      have hnone : List.dlookup v t = none := List.dlookup_eq_none.2 hnd.1
      rw [hnone, List.dlookup_cons_eq]
      simp [activeStep, lookup_addCharge]
    · rw [List.dlookup_cons_ne _ _ hvk]
      simp [activeStep, lookup_addCharge, hvk]

theorem lookup_foldl_activeStep_snd (tps : Nat) (rate : Int) (now : TimePoint)
    (v : VehiclePlate) :
    ∀ (l : List (Sigma (fun _ : VehiclePlate => TimePoint)))
      (acc : Bills × AList (fun _ : VehiclePlate => TimePoint)),
      (l.foldl (activeStep tps rate now) acc).2.lookup v =
        if v ∈ l.keys ∧ v ∈ acc.2 then some now else acc.2.lookup v
  | [], acc => by simp
  | ⟨k, b⟩ :: t, acc => by
    rw [List.foldl_cons, lookup_foldl_activeStep_snd tps rate now v t]
    simp only [activeStep, AList.mem_replace, lookup_replace_const, List.keys_cons,
      List.mem_cons]
    by_cases hvk : v = k
    · subst hvk
      by_cases hm : v ∈ acc.2
      · simp [hm]
      · simp [hm]
    · simp [hvk]

/-! ### The member functions, entry by entry -/

theorem GetCurrentBill_fst (tps : Nat) (p : Parking) (now : TimePoint) (v : VehiclePlate) :
    (GetCurrentBill tps p now v).1
      = wrap64 (p.cost_per_second_
          * (activeElapsedSeconds tps p now v + settledSeconds tps p v)) := by
  unfold GetCurrentBill activeElapsedSeconds settledSeconds
  cases p.now_parked_.lookup v <;> cases p.complete_parks_.lookup v <;>
    simp only [add64, mul64, wrap64_add_left, wrap64_add_right]
  · simp [wrap64_zero]
  · congr 1
    ring
  · congr 1
    ring
  · congr 1
    ring

theorem EndPeriodAndGetBills_lookup (tps : Nat) (p : Parking) (now : TimePoint)
    (v : VehiclePlate) :
    (EndPeriodAndGetBills tps p now).1.lookup v =
      if settledSeconds tps p v ≠ 0 ∨ (p.now_parked_.lookup v).isSome = true then
        some (wrap64 (p.cost_per_second_ * settledSeconds tps p v
          + p.cost_per_second_ * activeElapsedSeconds tps p now v))
      else none := by
  unfold EndPeriodAndGetBills
  simp only []
  rw [lookup_foldl_activeStep_fst tps _ now v _ p.now_parked_.nodupKeys,
    lookup_foldl_settledStep tps _ v _ p.complete_parks_.nodupKeys]
  unfold settledSeconds activeElapsedSeconds
  simp only [AList.lookup]
  cases h1 : List.dlookup v p.complete_parks_.entries <;>
    cases h2 : List.dlookup v p.now_parked_.entries
  · simp [AList.lookup]
  · simp [AList.lookup, add64, mul64, wrap64_add_left, wrap64_add_right,
      wrap64_wrap64]
    congr 1
    ring
  · rename_i d
    by_cases hz : duration_cast_seconds tps d = 0
    · simp [hz, AList.lookup]
    · simp [hz, AList.lookup, add64, mul64, wrap64_add_left, wrap64_add_right,
      wrap64_wrap64]
      congr 1
      ring
  · rename_i d b
    by_cases hz : duration_cast_seconds tps d = 0
    · simp [hz, AList.lookup, add64, mul64, wrap64_add_left, wrap64_add_right,
      wrap64_wrap64]
      congr 1
      ring
    · simp [hz, AList.lookup, add64, mul64, wrap64_add_left, wrap64_add_right,
      wrap64_wrap64]
      congr 1
      ring

theorem EndPeriodAndGetBills_now_parked (tps : Nat) (p : Parking) (now : TimePoint)
    (v : VehiclePlate) :
    (EndPeriodAndGetBills tps p now).2.now_parked_.lookup v =
      if (p.now_parked_.lookup v).isSome = true then some now else none := by
  unfold EndPeriodAndGetBills
  simp only []
  rw [lookup_foldl_activeStep_snd]
  by_cases h : v ∈ p.now_parked_
  · have h1 : v ∈ p.now_parked_.entries.keys := h
    have h2 : (p.now_parked_.lookup v).isSome = true := AList.lookup_isSome.2 h
    simp [h, h1, h2]
  · have h2 : p.now_parked_.lookup v = none := AList.lookup_eq_none.2 h
    simp [h, h2]

theorem EndPeriodAndGetBills_complete_parks (tps : Nat) (p : Parking) (now : TimePoint) :
    (EndPeriodAndGetBills tps p now).2.complete_parks_ = ∅ := rfl

theorem EndPeriodAndGetBills_cost (tps : Nat) (p : Parking) (now : TimePoint) :
    (EndPeriodAndGetBills tps p now).2.cost_per_second_ = p.cost_per_second_ := rfl

theorem Park_of_lookup_none (p : Parking) (now : TimePoint) (v : VehiclePlate)
    (h : p.now_parked_.lookup v = none) :
    Park p now v = (Except.ok (), { p with now_parked_ := p.now_parked_.insert v now }) := by
  simp [Park, h]

theorem Park_of_lookup_some (p : Parking) (now : TimePoint) (v : VehiclePlate) (s : TimePoint)
    (h : p.now_parked_.lookup v = some s) :
    Park p now v = (Except.error ParkingException.mk, p) := by
  simp [Park, h]

theorem Withdraw_of_lookup_none (tps : Nat) (p : Parking) (now : TimePoint) (v : VehiclePlate)
    (h : p.now_parked_.lookup v = none) :
    Withdraw tps p now v = (Except.error ParkingException.mk, p) := by
  simp [Withdraw, h]

theorem Withdraw_of_lookup_some (tps : Nat) (p : Parking) (now : TimePoint) (v : VehiclePlate)
    (s : TimePoint) (h : p.now_parked_.lookup v = some s) :
    Withdraw tps p now v =
      (Except.ok (),
        { p with
          complete_parks_ := p.complete_parks_.insert v
            ((p.complete_parks_.lookup v).getD 0
              + seconds_to_duration tps (duration_cast_seconds tps (now - s)))
          now_parked_ := p.now_parked_.erase v }) := by
  simp [Withdraw, h]

/-! ### The claims -/

/-- C1, as stated, fails: at rate `2147483647`, with plate A parked for `4294967300` seconds,
`rate * (activeElapsedSeconds + settledSeconds)` is `9223372041149743100`, which no `int64_t`
holds; `GetCurrentBill` returns `-9223372032559808516`. -/
theorem GetCurrentBill_overflow :
    (GetCurrentBill 1 ledgerMaxRate 4294967300 plateA).1 = -9223372032559808516 ∧
    ledgerMaxRate.cost_per_second_
      * (activeElapsedSeconds 1 ledgerMaxRate 4294967300 plateA
          + settledSeconds 1 ledgerMaxRate plateA) = 9223372041149743100 ∧
    GetCurrentBill 1 ledgerMaxRate 4294967300 plateA
      ≠ (ledgerMaxRate.cost_per_second_
          * (activeElapsedSeconds 1 ledgerMaxRate 4294967300 plateA
              + settledSeconds 1 ledgerMaxRate plateA), ledgerMaxRate) := by
  have h1 : (GetCurrentBill 1 ledgerMaxRate 4294967300 plateA).1 = -9223372032559808516 := by
    decide
  have h2 : ledgerMaxRate.cost_per_second_
      * (activeElapsedSeconds 1 ledgerMaxRate 4294967300 plateA
          + settledSeconds 1 ledgerMaxRate plateA) = 9223372041149743100 := by
    decide
  refine ⟨h1, h2, fun h => ?_⟩
  have h3 := congrArg Prod.fst h
  rw [h1, h2] at h3
  exact absurd h3 (by decide)

/-- C1, amended: `GetCurrentBill(v)` returns `rate * (activeElapsedSeconds + settledSeconds)`
reduced to the range of `int64_t`, hence exactly that product whenever it lies in the range of
`int64_t`; the first term is `now - active[v]` in whole seconds (`0` when `v` is not active) and
the second is the settled duration of `v` in whole seconds (`0` when `v` has no settled entry);
the ledger state after the call is the state before it. -/
theorem GetCurrentBill_eq (tps : Nat) (p : Parking) (now : TimePoint) (v : VehiclePlate) :
    GetCurrentBill tps p now v
      = (wrap64 (p.cost_per_second_
          * (activeElapsedSeconds tps p now v + settledSeconds tps p v)), p) ∧
    (inInt64 (p.cost_per_second_
        * (activeElapsedSeconds tps p now v + settledSeconds tps p v)) →
      GetCurrentBill tps p now v
        = (p.cost_per_second_
            * (activeElapsedSeconds tps p now v + settledSeconds tps p v), p)) := by
  have h : GetCurrentBill tps p now v
      = (wrap64 (p.cost_per_second_
          * (activeElapsedSeconds tps p now v + settledSeconds tps p v)), p) :=
    Prod.ext (GetCurrentBill_fst tps p now v) rfl
  refine ⟨h, fun hr => ?_⟩
  rw [h, wrap64_of_inInt64 hr]

/-- C2, as stated, fails in its amount: at rate `2147483647`, with plate A parked for
`4294967300` seconds, `rate * elapsed` is `9223372041149743100`, which no `int64_t` holds; the
entry of plate A in the returned map is `-9223372032559808516`. -/
theorem EndPeriodAndGetBills_result_overflow :
    plateA ∈ (EndPeriodAndGetBills 1 ledgerMaxRate 4294967300).1 ∧
    (EndPeriodAndGetBills 1 ledgerMaxRate 4294967300).1.lookup plateA
      = some (-9223372032559808516) ∧
    ledgerMaxRate.cost_per_second_ * settledSeconds 1 ledgerMaxRate plateA
      + ledgerMaxRate.cost_per_second_
        * activeElapsedSeconds 1 ledgerMaxRate 4294967300 plateA = 9223372041149743100 ∧
    (EndPeriodAndGetBills 1 ledgerMaxRate 4294967300).1.lookup plateA
      ≠ some (ledgerMaxRate.cost_per_second_ * settledSeconds 1 ledgerMaxRate plateA
          + ledgerMaxRate.cost_per_second_
            * activeElapsedSeconds 1 ledgerMaxRate 4294967300 plateA) := by
  decide

/-- C2, amended: the map returned by `EndPeriodAndGetBills` contains `v` exactly when `v` has a
settled entry of nonzero whole-second duration or `v` is active; the amount of such a `v` is
`rate * settledSeconds v + rate * activeElapsedSeconds v` reduced to the range of `int64_t`, hence
exactly that sum whenever it lies in the range of `int64_t`, each term counting only when the
entry exists; a vehicle with zero settled duration that is not active is absent. -/
theorem EndPeriodAndGetBills_result (tps : Nat) (p : Parking) (now : TimePoint)
    (v : VehiclePlate) :
    (v ∈ (EndPeriodAndGetBills tps p now).1 ↔
      ((∃ d, p.complete_parks_.lookup v = some d ∧ duration_cast_seconds tps d ≠ 0)
        ∨ v ∈ p.now_parked_)) ∧
    (v ∈ (EndPeriodAndGetBills tps p now).1 →
      (EndPeriodAndGetBills tps p now).1.lookup v =
        some (wrap64 (p.cost_per_second_ * settledSeconds tps p v
          + p.cost_per_second_ * activeElapsedSeconds tps p now v))) ∧
    (v ∈ (EndPeriodAndGetBills tps p now).1 →
      inInt64 (p.cost_per_second_ * settledSeconds tps p v
          + p.cost_per_second_ * activeElapsedSeconds tps p now v) →
      (EndPeriodAndGetBills tps p now).1.lookup v =
        some (p.cost_per_second_ * settledSeconds tps p v
          + p.cost_per_second_ * activeElapsedSeconds tps p now v)) ∧
    (settledSeconds tps p v = 0 → v ∉ p.now_parked_ →
      (EndPeriodAndGetBills tps p now).1.lookup v = none) := by
  have hl := EndPeriodAndGetBills_lookup tps p now v
  have hs : settledSeconds tps p v ≠ 0 ↔
      ∃ d, p.complete_parks_.lookup v = some d ∧ duration_cast_seconds tps d ≠ 0 := by
    unfold settledSeconds
    cases p.complete_parks_.lookup v <;> simp
  have ha : (p.now_parked_.lookup v).isSome = true ↔ v ∈ p.now_parked_ := AList.lookup_isSome
  have hamount : v ∈ (EndPeriodAndGetBills tps p now).1 →
      (EndPeriodAndGetBills tps p now).1.lookup v =
        some (wrap64 (p.cost_per_second_ * settledSeconds tps p v
          + p.cost_per_second_ * activeElapsedSeconds tps p now v)) := by
    intro hm
    rw [← AList.lookup_isSome, hl] at hm
    rw [hl]
    split
    · rfl
    · simp_all
  refine ⟨?_, hamount, ?_, ?_⟩
  · rw [← AList.lookup_isSome, hl, ← hs, ← ha]
    split <;> simp_all
  · intro hm hr
    rw [hamount hm, wrap64_of_inInt64 hr]
  · intro h0 hn
    rw [hl, if_neg]
    rw [ha]
    simp [h0, hn]

/-- C3: when `v` is active with start instant `s`, `Withdraw(v)` at `now` succeeds; afterwards the
settled duration of `v` is its previous value (`0` if there was none) plus `now - s` truncated
toward zero to whole seconds, `v` is not active, and the active and settled entries of every other
vehicle are as before. -/
theorem Withdraw_active (tps : Nat) (p : Parking) (now : TimePoint) (v : VehiclePlate)
    (s : TimePoint) (h : p.now_parked_.lookup v = some s) :
    (Withdraw tps p now v).1 = Except.ok () ∧
    (Withdraw tps p now v).2.complete_parks_.lookup v =
      some ((p.complete_parks_.lookup v).getD 0
        + seconds_to_duration tps (duration_cast_seconds tps (now - s))) ∧
    (Withdraw tps p now v).2.now_parked_.lookup v = none ∧
    (∀ w, w ≠ v →
      (Withdraw tps p now v).2.now_parked_.lookup w = p.now_parked_.lookup w ∧
      (Withdraw tps p now v).2.complete_parks_.lookup w = p.complete_parks_.lookup w) ∧
    (Withdraw tps p now v).2.cost_per_second_ = p.cost_per_second_ := by
  rw [Withdraw_of_lookup_some tps p now v s h]
  refine ⟨rfl, AList.lookup_insert _, AList.lookup_erase _ _, ?_, rfl⟩
  intro w hw
  exact ⟨AList.lookup_erase_ne hw, AList.lookup_insert_ne hw⟩

/-- C4: when `v` is not active, `Park(v)` at `now` succeeds; afterwards `active[v] = now`, every
other active entry is as before and the settled map is the one before the call. -/
theorem Park_not_active (p : Parking) (now : TimePoint) (v : VehiclePlate)
    (h : p.now_parked_.lookup v = none) :
    (Park p now v).1 = Except.ok () ∧
    (Park p now v).2.now_parked_.lookup v = some now ∧
    (∀ w, w ≠ v → (Park p now v).2.now_parked_.lookup w = p.now_parked_.lookup w) ∧
    (Park p now v).2.complete_parks_ = p.complete_parks_ ∧
    (Park p now v).2.cost_per_second_ = p.cost_per_second_ := by
  rw [Park_of_lookup_none p now v h]
  exact ⟨rfl, AList.lookup_insert _, fun w hw => AList.lookup_insert_ne hw, rfl, rfl⟩

/-- Witness of C3: plate A, parked at tick 10, is withdrawn at tick 20 (one tick a second). -/
theorem Withdraw_active_witness :
    ledgerAfterFirstPark.now_parked_.lookup plateA = some 10 ∧
    (Withdraw 1 ledgerAfterFirstPark 20 plateA).1 = Except.ok () ∧
    (Withdraw 1 ledgerAfterFirstPark 20 plateA).2.complete_parks_.lookup plateA = some 10 ∧
    (Withdraw 1 ledgerAfterFirstPark 20 plateA).2.now_parked_.lookup plateA = none :=
  have h := Withdraw_active 1 ledgerAfterFirstPark 20 plateA 10 (by decide)
  ⟨by decide, h.1, h.2.1, h.2.2.1⟩

/-- Witness of C4: plate B is parked at tick 20 in a ledger where only plate A is active. -/
theorem Park_not_active_witness :
    ledgerAfterFirstPark.now_parked_.lookup plateB = none ∧
    (Park ledgerAfterFirstPark 20 plateB).1 = Except.ok () ∧
    (Park ledgerAfterFirstPark 20 plateB).2.now_parked_.lookup plateB = some 20 :=
  have h := Park_not_active ledgerAfterFirstPark 20 plateB (by decide)
  ⟨by decide, h.1, h.2.1⟩

/-- C5: `Park(v)` fails exactly when `v` is active; a failing `Park` leaves the ledger (both maps)
as it was; and a `Park(v)` that follows a `Park(v)` fails. -/
theorem Park_fails_iff (p : Parking) (now : TimePoint) (v : VehiclePlate) :
    ((Park p now v).1 = Except.error ParkingException.mk ↔ v ∈ p.now_parked_) ∧
    ((Park p now v).1 = Except.error ParkingException.mk → (Park p now v).2 = p) ∧
    (∀ later : TimePoint,
      (Park (Park p now v).2 later v).1 = Except.error ParkingException.mk ∧
      (Park (Park p now v).2 later v).2 = (Park p now v).2) := by
  cases h : p.now_parked_.lookup v with
  | none =>
    have hm : v ∉ p.now_parked_ := AList.lookup_eq_none.1 h
    rw [Park_of_lookup_none p now v h]
    refine ⟨by simp [hm], by simp, fun later => ?_⟩
    rw [Park_of_lookup_some _ later v now (AList.lookup_insert _)]
    exact ⟨rfl, rfl⟩
  | some s =>
    have hm : v ∈ p.now_parked_ := AList.lookup_isSome.1 (by simp [h])
    rw [Park_of_lookup_some p now v s h]
    refine ⟨by simp [hm], by simp, fun later => ?_⟩
    rw [Park_of_lookup_some p later v s h]
    exact ⟨rfl, rfl⟩

/-- C6: `Withdraw(v)` fails exactly when `v` is not active; a failing `Withdraw` leaves the ledger
(both maps) as it was; `Withdraw(v)` fails on a fresh ledger and after a `Withdraw(v)`. -/
theorem Withdraw_fails_iff (tps : Nat) (p : Parking) (now : TimePoint) (v : VehiclePlate) :
    ((Withdraw tps p now v).1 = Except.error ParkingException.mk ↔ v ∉ p.now_parked_) ∧
    ((Withdraw tps p now v).1 = Except.error ParkingException.mk →
      (Withdraw tps p now v).2 = p) ∧
    (∀ rate : Int, Withdraw tps (Parking.new rate) now v
      = (Except.error ParkingException.mk, Parking.new rate)) ∧
    (∀ later : TimePoint,
      (Withdraw tps (Withdraw tps p now v).2 later v).1 = Except.error ParkingException.mk ∧
      (Withdraw tps (Withdraw tps p now v).2 later v).2 = (Withdraw tps p now v).2) := by
  have hnew : ∀ rate : Int, Withdraw tps (Parking.new rate) now v
      = (Except.error ParkingException.mk, Parking.new rate) :=
    fun rate => Withdraw_of_lookup_none tps _ now v (AList.lookup_empty v)
  cases h : p.now_parked_.lookup v with
  | none =>
    have hm : v ∉ p.now_parked_ := AList.lookup_eq_none.1 h
    rw [Withdraw_of_lookup_none tps p now v h]
    refine ⟨by simp [hm], by simp, hnew, fun later => ?_⟩
    rw [Withdraw_of_lookup_none tps p later v h]
    exact ⟨rfl, rfl⟩
  | some s =>
    have hm : v ∈ p.now_parked_ := AList.lookup_isSome.1 (by simp [h])
    rw [Withdraw_of_lookup_some tps p now v s h]
    refine ⟨by simp [hm], by simp, hnew, fun later => ?_⟩
    rw [Withdraw_of_lookup_none tps _ later v (AList.lookup_erase _ _)]
    exact ⟨rfl, rfl⟩

/-- C7: after `EndPeriodAndGetBills` at `now` the settled map is empty, the active vehicles are
exactly those active before the call, and every active entry holds the start instant `now`. -/
theorem EndPeriodAndGetBills_state (tps : Nat) (p : Parking) (now : TimePoint) :
    (EndPeriodAndGetBills tps p now).2.complete_parks_ = ∅ ∧
    (∀ v, v ∈ (EndPeriodAndGetBills tps p now).2.now_parked_ ↔ v ∈ p.now_parked_) ∧
    (∀ v, v ∈ p.now_parked_ →
      (EndPeriodAndGetBills tps p now).2.now_parked_.lookup v = some now) ∧
    (EndPeriodAndGetBills tps p now).2.cost_per_second_ = p.cost_per_second_ := by
  refine ⟨rfl, fun v => ?_, fun v hv => ?_, rfl⟩
  · rw [← AList.lookup_isSome, EndPeriodAndGetBills_now_parked, ← AList.lookup_isSome]
    split <;> simp_all
  · rw [EndPeriodAndGetBills_now_parked, if_pos (AList.lookup_isSome.2 hv)]

theorem eq_empty_of_forall_not_mem {γ : Type} (s : AList (fun _ : VehiclePlate => γ))
    (h : ∀ v, v ∉ s) : s = ∅ := by
  apply AList.ext
  cases hs : s.entries with
  | nil => rfl
  | cons e t =>
    have hm : e.1 ∈ s := by
      rw [AList.mem_keys, AList.keys, hs]
      simp
    exact absurd hm (h e.1)

theorem EndPeriodAndGetBills_twice_lookup (tps : Nat) (p : Parking) (t1 t2 : TimePoint)
    (v : VehiclePlate) :
    (EndPeriodAndGetBills tps (EndPeriodAndGetBills tps p t1).2 t2).1.lookup v =
      if (p.now_parked_.lookup v).isSome = true then
        some (wrap64 (p.cost_per_second_ * duration_cast_seconds tps (t2 - t1)))
      else none := by
  rw [EndPeriodAndGetBills_lookup]
  have hs : settledSeconds tps (EndPeriodAndGetBills tps p t1).2 v = 0 := by
    unfold settledSeconds
    rw [EndPeriodAndGetBills_complete_parks, AList.lookup_empty]
  have hn := EndPeriodAndGetBills_now_parked tps p t1 v
  rw [hs, EndPeriodAndGetBills_cost]
  unfold activeElapsedSeconds
  rw [hn]
  by_cases h : (p.now_parked_.lookup v).isSome = true
  · simp [h]
  · simp [h]

/-- C8, as stated, fails in its amount: at rate `2147483647`, with plate A active and settlements
at ticks `0` and `4294967300`, `rate * (t2 - t1)` is `9223372041149743100`, which no `int64_t`
holds; the second result bills plate A `-9223372032559808516`. -/
theorem EndPeriodAndGetBills_no_double_billing_overflow :
    plateA ∈ ledgerMaxRate.now_parked_ ∧
    (EndPeriodAndGetBills 1 (EndPeriodAndGetBills 1 ledgerMaxRate 0).2 4294967300).1.lookup plateA
      = some (-9223372032559808516) ∧
    ledgerMaxRate.cost_per_second_ * duration_cast_seconds 1 (4294967300 - 0)
      = 9223372041149743100 ∧
    (EndPeriodAndGetBills 1 (EndPeriodAndGetBills 1 ledgerMaxRate 0).2 4294967300).1.lookup plateA
      ≠ some (ledgerMaxRate.cost_per_second_ * duration_cast_seconds 1 (4294967300 - 0)) := by
  decide

/-- C8, amended: when `v` is active and `EndPeriodAndGetBills` is called at `t1` and again at `t2`
with no call in between, the second result bills `v` `rate * (t2 - t1)` in whole seconds reduced
to the range of `int64_t`, hence exactly `rate * (t2 - t1)` whenever that lies in the range of
`int64_t`, whatever the start instant and the settled balance of `v` were (this holds for every
`t1` and `t2`, in particular for `t2 >= t1`). -/
theorem EndPeriodAndGetBills_no_double_billing (tps : Nat) (p : Parking) (t1 t2 : TimePoint)
    (v : VehiclePlate) (h : v ∈ p.now_parked_) :
    (EndPeriodAndGetBills tps (EndPeriodAndGetBills tps p t1).2 t2).1.lookup v
      = some (wrap64 (p.cost_per_second_ * duration_cast_seconds tps (t2 - t1))) ∧
    (inInt64 (p.cost_per_second_ * duration_cast_seconds tps (t2 - t1)) →
      (EndPeriodAndGetBills tps (EndPeriodAndGetBills tps p t1).2 t2).1.lookup v
        = some (p.cost_per_second_ * duration_cast_seconds tps (t2 - t1))) := by
  have hw : (EndPeriodAndGetBills tps (EndPeriodAndGetBills tps p t1).2 t2).1.lookup v
      = some (wrap64 (p.cost_per_second_ * duration_cast_seconds tps (t2 - t1))) := by
    rw [EndPeriodAndGetBills_twice_lookup, if_pos (AList.lookup_isSome.2 h)]
  refine ⟨hw, fun hr => ?_⟩
  rw [hw, wrap64_of_inInt64 hr]

/-- Witness of C8: plate A, parked at tick 10, is billed `10 * (80 - 70)` by the second of two
settlements at ticks 70 and 80. -/
theorem EndPeriodAndGetBills_no_double_billing_witness :
    plateA ∈ ledgerAfterFirstPark.now_parked_ ∧
    inInt64 (ledgerAfterFirstPark.cost_per_second_ * duration_cast_seconds 1 (80 - 70)) ∧
    (EndPeriodAndGetBills 1 (EndPeriodAndGetBills 1 ledgerAfterFirstPark 70).2 80).1.lookup plateA
      = some (ledgerAfterFirstPark.cost_per_second_ * duration_cast_seconds 1 (80 - 70)) :=
  ⟨by decide, by decide,
    (EndPeriodAndGetBills_no_double_billing 1 ledgerAfterFirstPark 70 80 plateA
      (by decide)).2 (by decide)⟩

/-- C9, as stated, fails: with plate A parked, the second of two consecutive settlements (at ticks
70 and 80, or both at tick 70) is not the empty map; it holds an entry for A. -/
theorem EndPeriodAndGetBills_twice_not_empty :
    (EndPeriodAndGetBills 1 (EndPeriodAndGetBills 1 ledgerAfterFirstPark 70).2 80).1 ≠ ∅ ∧
    (EndPeriodAndGetBills 1 (EndPeriodAndGetBills 1 ledgerAfterFirstPark 70).2 80).1.lookup plateA
      = some 100 ∧
    (EndPeriodAndGetBills 1 (EndPeriodAndGetBills 1 ledgerAfterFirstPark 70).2 70).1 ≠ ∅ ∧
    (EndPeriodAndGetBills 1 (EndPeriodAndGetBills 1 ledgerAfterFirstPark 70).2 70).1.lookup plateA
      = some 0 := by
  have h80 : (EndPeriodAndGetBills 1 (EndPeriodAndGetBills 1 ledgerAfterFirstPark 70).2 80).1.lookup
      plateA = some 100 := by decide
  have h70 : (EndPeriodAndGetBills 1 (EndPeriodAndGetBills 1 ledgerAfterFirstPark 70).2 70).1.lookup
      plateA = some 0 := by decide
  refine ⟨fun he => ?_, h80, fun he => ?_, h70⟩
  · rw [he, AList.lookup_empty] at h80
    exact Option.noConfusion h80
  · rw [he, AList.lookup_empty] at h70
    exact Option.noConfusion h70

/-- C9, amended: when `EndPeriodAndGetBills` is called at `t1` and again at `t2` with no call in
between, the second result contains exactly the active vehicles, each with the amount
`rate * (t2 - t1)` in whole seconds reduced to the range of `int64_t`, hence exactly
`rate * (t2 - t1)` whenever that lies in the range of `int64_t`; it is the empty map when no
vehicle is active. -/
theorem EndPeriodAndGetBills_twice (tps : Nat) (p : Parking) (t1 t2 : TimePoint) :
    (∀ v, v ∈ (EndPeriodAndGetBills tps (EndPeriodAndGetBills tps p t1).2 t2).1
      ↔ v ∈ p.now_parked_) ∧
    (∀ v, v ∈ p.now_parked_ →
      (EndPeriodAndGetBills tps (EndPeriodAndGetBills tps p t1).2 t2).1.lookup v
        = some (wrap64 (p.cost_per_second_ * duration_cast_seconds tps (t2 - t1)))) ∧
    (∀ v, v ∈ p.now_parked_ →
      inInt64 (p.cost_per_second_ * duration_cast_seconds tps (t2 - t1)) →
      (EndPeriodAndGetBills tps (EndPeriodAndGetBills tps p t1).2 t2).1.lookup v
        = some (p.cost_per_second_ * duration_cast_seconds tps (t2 - t1))) ∧
    ((∀ v, v ∉ p.now_parked_) →
      (EndPeriodAndGetBills tps (EndPeriodAndGetBills tps p t1).2 t2).1 = ∅) := by
  have hmem : ∀ v, v ∈ (EndPeriodAndGetBills tps (EndPeriodAndGetBills tps p t1).2 t2).1
      ↔ v ∈ p.now_parked_ := by
    intro v
    rw [← AList.lookup_isSome, EndPeriodAndGetBills_twice_lookup, ← AList.lookup_isSome]
    split <;> simp_all
  have hw : ∀ v, v ∈ p.now_parked_ →
      (EndPeriodAndGetBills tps (EndPeriodAndGetBills tps p t1).2 t2).1.lookup v
        = some (wrap64 (p.cost_per_second_ * duration_cast_seconds tps (t2 - t1))) := by
    intro v hv
    rw [EndPeriodAndGetBills_twice_lookup, if_pos (AList.lookup_isSome.2 hv)]
  refine ⟨hmem, hw, fun v hv hr => ?_, fun hnone => ?_⟩
  · rw [hw v hv, wrap64_of_inInt64 hr]
  · exact eq_empty_of_forall_not_mem _ (fun v hv => hnone v ((hmem v).1 hv))

/-! ### The scenario of `main` -/

theorem duration_cast_seconds_to_duration (tps : Nat) (h : 0 < tps) (k : Int) :
    duration_cast_seconds tps (seconds_to_duration tps k) = k := by
  unfold duration_cast_seconds seconds_to_duration
  exact Int.mul_tdiv_cancel k (by omega)

theorem duration_cast_seconds_now_sub (tps : Nat) (h : 0 < tps) (start : TimePoint)
    (a b : Int) :
    duration_cast_seconds tps (TestClock.now tps start a - TestClock.now tps start b) = a - b := by
  have he : TestClock.now tps start a - TestClock.now tps start b
      = seconds_to_duration tps (a - b) := by
    unfold TestClock.now seconds_to_duration
    ring
  rw [he, duration_cast_seconds_to_duration tps h]

theorem plateA_ne_plateB : plateA ≠ plateB := by decide

theorem plateA_ne_plateC : plateA ≠ plateC := by decide

theorem plateB_ne_plateC : plateB ≠ plateC := by decide

theorem lookup_insert_ite {γ : Type} (s : AList (fun _ : VehiclePlate => γ))
    (a v : VehiclePlate) (b : γ) :
    (s.insert a b).lookup v = if v = a then some b else s.lookup v := by
  by_cases h : v = a
  · subst h
    simp [AList.lookup_insert]
  · simp [h, AList.lookup_insert_ne h]

theorem lookup_erase_ite {γ : Type} (s : AList (fun _ : VehiclePlate => γ))
    (a v : VehiclePlate) :
    (s.erase a).lookup v = if v = a then none else s.lookup v := by
  by_cases h : v = a
  · subst h
    simp [AList.lookup_erase]
  · simp [h, AList.lookup_erase_ne h]

theorem mainEndPeriod6_lookup (tps : Nat) (h : 0 < tps) (start : TimePoint) (v : VehiclePlate) :
    (mainEndPeriod6 tps start).1.lookup v
      = if v = plateA then some 400 else if v = plateB then some 300 else none := by
  have hAB := plateA_ne_plateB
  have hBA := plateA_ne_plateB.symm
  unfold mainEndPeriod6
  rw [EndPeriodAndGetBills_lookup]
  by_cases hA : v = plateA
  · subst hA
    simp [settledSeconds, activeElapsedSeconds, mainWithdraw5, mainPark4, mainPark3, mainWithdraw2,
      mainPark1, Parking.new, Park, Withdraw, lookup_insert_ite, lookup_erase_ite,
      -AList.insert_empty, hAB, hBA, duration_cast_seconds_now_sub tps h,
      duration_cast_seconds_to_duration tps h, wrap64, add64, mul64]
  · by_cases hB : v = plateB
    · subst hB
      simp [settledSeconds, activeElapsedSeconds, mainWithdraw5, mainPark4, mainPark3,
        mainWithdraw2, mainPark1, Parking.new, Park, Withdraw, lookup_insert_ite, lookup_erase_ite,
        -AList.insert_empty, hAB, hBA, duration_cast_seconds_now_sub tps h,
        duration_cast_seconds_to_duration tps h, wrap64, add64, mul64]
    · simp [settledSeconds, activeElapsedSeconds, mainWithdraw5, mainPark4, mainPark3,
        mainWithdraw2, mainPark1, Parking.new, Park, Withdraw, lookup_insert_ite, lookup_erase_ite,
        -AList.insert_empty, hAB, hBA, hA, hB, duration_cast_seconds_now_sub tps h,
        duration_cast_seconds_to_duration tps h, wrap64, add64, mul64]

theorem mainEndPeriod7_lookup (tps : Nat) (h : 0 < tps) (start : TimePoint) (v : VehiclePlate) :
    (mainEndPeriod7 tps start).1.lookup v = if v = plateA then some 100 else none := by
  have hAB := plateA_ne_plateB
  have hBA := plateA_ne_plateB.symm
  unfold mainEndPeriod7 mainEndPeriod6
  rw [EndPeriodAndGetBills_twice_lookup]
  by_cases hA : v = plateA
  · subst hA
    simp [mainWithdraw5, mainPark4, mainPark3, mainWithdraw2,
      mainPark1, Parking.new, Park, Withdraw, lookup_insert_ite, lookup_erase_ite,
      -AList.insert_empty, hAB, hBA, duration_cast_seconds_now_sub tps h,
      duration_cast_seconds_to_duration tps h, wrap64, add64, mul64]
  · by_cases hB : v = plateB
    · subst hB
      simp [mainWithdraw5, mainPark4, mainPark3,
        mainWithdraw2, mainPark1, Parking.new, Park, Withdraw, lookup_insert_ite, lookup_erase_ite,
        -AList.insert_empty, hAB, hBA, duration_cast_seconds_now_sub tps h,
        duration_cast_seconds_to_duration tps h, wrap64, add64, mul64]
    · simp [mainWithdraw5, mainPark4, mainPark3,
        mainWithdraw2, mainPark1, Parking.new, Park, Withdraw, lookup_insert_ite, lookup_erase_ite,
        -AList.insert_empty, hAB, hBA, hA, hB, duration_cast_seconds_now_sub tps h,
        duration_cast_seconds_to_duration tps h, wrap64, add64, mul64]

theorem entries_perm_of_lookup (m : Bills) (l : List (Sigma (fun _ : VehiclePlate => Int)))
    (hl : l.NodupKeys) (h : ∀ v, m.lookup v = List.dlookup v l) : m.entries.Perm l :=
  List.lookup_ext m.nodupKeys hl (fun x y => by
    have hx : List.dlookup x m.entries = List.dlookup x l := h x
    rw [hx])

/-- C10: the scenario of `main` on a fresh ledger with rate 10, for a test clock with any positive
number of ticks a second and any start point: park A at 10; at 20 withdraw A and park B; at 40 the
bills of A and B are 100 and 200, then park A; at 50 the bills of A, B and the never-parked C are
200, 300 and 0, then withdraw B; at 70 `EndPeriodAndGetBills` returns exactly `{A: 400, B: 300}`;
at 80 it returns exactly `{A: 100}`; every `Park` and `Withdraw` succeeds. -/
theorem main_scenario (tps : Nat) (h : 0 < tps) (start : TimePoint) :
    (mainPark1 tps start).1 = Except.ok () ∧
    (mainWithdraw2 tps start).1 = Except.ok () ∧
    (mainPark3 tps start).1 = Except.ok () ∧
    (GetCurrentBill tps (mainPark3 tps start).2 (TestClock.now tps start 40) plateA).1 = 100 ∧
    (GetCurrentBill tps (mainPark3 tps start).2 (TestClock.now tps start 40) plateB).1 = 200 ∧
    (mainPark4 tps start).1 = Except.ok () ∧
    (GetCurrentBill tps (mainPark4 tps start).2 (TestClock.now tps start 50) plateA).1 = 200 ∧
    (GetCurrentBill tps (mainPark4 tps start).2 (TestClock.now tps start 50) plateB).1 = 300 ∧
    (GetCurrentBill tps (mainPark4 tps start).2 (TestClock.now tps start 50) plateC).1 = 0 ∧
    (mainWithdraw5 tps start).1 = Except.ok () ∧
    (mainEndPeriod6 tps start).1.entries.Perm [⟨plateA, 400⟩, ⟨plateB, 300⟩] ∧
    (mainEndPeriod7 tps start).1.entries.Perm [⟨plateA, 100⟩] := by
  have hAB := plateA_ne_plateB
  have hBA := plateA_ne_plateB.symm
  have hAC := plateA_ne_plateC
  have hCA := plateA_ne_plateC.symm
  have hBC := plateB_ne_plateC
  have hCB := plateB_ne_plateC.symm
  have h6 : (mainEndPeriod6 tps start).1.entries.Perm [⟨plateA, 400⟩, ⟨plateB, 300⟩] := by
    apply entries_perm_of_lookup
    · simp [List.NodupKeys, List.keys, hAB]
    · intro v
      rw [mainEndPeriod6_lookup tps h start v]
      by_cases hA : v = plateA
      · subst hA
        simp [List.dlookup_cons_eq]
      · by_cases hB : v = plateB
        · subst hB
          simp [List.dlookup_cons_eq, List.dlookup_cons_ne, hBA]
        · simp [List.dlookup_cons_ne, hA, hB]
  have h7 : (mainEndPeriod7 tps start).1.entries.Perm [⟨plateA, 100⟩] := by
    apply entries_perm_of_lookup
    · simp [List.NodupKeys, List.keys]
    · intro v
      rw [mainEndPeriod7_lookup tps h start v]
      by_cases hA : v = plateA
      · subst hA
        simp [List.dlookup_cons_eq]
      · simp [List.dlookup_cons_ne, hA]
  refine ⟨?_, ?_, ?_, ?_, ?_, ?_, ?_, ?_, ?_, ?_, h6, h7⟩ <;>
  simp [mainWithdraw5, mainPark4, mainPark3, mainWithdraw2, mainPark1, Parking.new, Park, Withdraw,
    GetCurrentBill, lookup_insert_ite, lookup_erase_ite, -AList.insert_empty,
    hAB, hBA, hAC, hCA, hBC, hCB, duration_cast_seconds_now_sub tps h,
    duration_cast_seconds_to_duration tps h, wrap64, add64, mul64]

/-- Witness of C10: a test clock ticking in nanoseconds that started at tick
`1700000000000000000`. -/
theorem main_scenario_witness :
    0 < 1000000000 ∧
    (mainEndPeriod6 1000000000 1700000000000000000).1.entries.Perm
      [⟨plateA, 400⟩, ⟨plateB, 300⟩] ∧
    (mainEndPeriod7 1000000000 1700000000000000000).1.entries.Perm [⟨plateA, 100⟩] :=
  have h := main_scenario 1000000000 (by decide) 1700000000000000000
  ⟨by decide, h.2.2.2.2.2.2.2.2.2.2.1, h.2.2.2.2.2.2.2.2.2.2.2⟩

/-! ### Relations between the member functions -/

theorem tdiv_mono_left (n : Nat) {a b : Int} (h : a ≤ b) :
    Int.tdiv a (n : Int) ≤ Int.tdiv b (n : Int) := by
  have hn : (0 : Int) ≤ (n : Int) := Int.ofNat_nonneg n
  by_cases hz : (n : Int) = 0
  · rw [hz, Int.tdiv_zero, Int.tdiv_zero]
  have hpos : (0 : Int) < (n : Int) := lt_of_le_of_ne hn (Ne.symm hz)
  by_cases ha : 0 ≤ a
  · rw [Int.tdiv_eq_ediv ha hn, Int.tdiv_eq_ediv (le_trans ha h) hn]
    exact Int.ediv_le_ediv hpos h
  · have ha' : 0 ≤ -a := by omega
    have h1 : Int.tdiv a (n : Int) = -(Int.tdiv (-a) (n : Int)) := by
      rw [Int.neg_tdiv, neg_neg]
    by_cases hb : 0 ≤ b
    · have h2 : 0 ≤ Int.tdiv (-a) (n : Int) := Int.tdiv_nonneg ha' hn
      have h3 : 0 ≤ Int.tdiv b (n : Int) := Int.tdiv_nonneg hb hn
      omega
    · have hb' : 0 ≤ -b := by omega
      have h2 : Int.tdiv b (n : Int) = -(Int.tdiv (-b) (n : Int)) := by
        rw [Int.neg_tdiv, neg_neg]
      rw [h1, h2, Int.tdiv_eq_ediv ha' hn, Int.tdiv_eq_ediv hb' hn]
      have : (-b) / (n : Int) ≤ (-a) / (n : Int) := Int.ediv_le_ediv hpos (by omega)
      omega

theorem duration_cast_seconds_mono (tps : Nat) {a b : Duration} (h : a ≤ b) :
    duration_cast_seconds tps a ≤ duration_cast_seconds tps b :=
  tdiv_mono_left tps h

/-- C12, as stated, fails: at the non-negative rate `2147483647`, with plate A parked since tick
`0`, `GetCurrentBill(A)` is `9223372032559808512` at `4294967296` and `-9223372032559808516` at
the later instant `4294967300`, where `rate * elapsed` has left the range of `int64_t`. -/
theorem GetCurrentBill_not_mono :
    0 ≤ ledgerMaxRate.cost_per_second_ ∧ plateA ∈ ledgerMaxRate.now_parked_ ∧
    (4294967296 : Int) ≤ 4294967300 ∧
    (GetCurrentBill 1 ledgerMaxRate 4294967296 plateA).1 = 9223372032559808512 ∧
    (GetCurrentBill 1 ledgerMaxRate 4294967300 plateA).1 = -9223372032559808516 ∧
    ¬ (GetCurrentBill 1 ledgerMaxRate 4294967296 plateA).1
        ≤ (GetCurrentBill 1 ledgerMaxRate 4294967300 plateA).1 := by
  decide

/-- C12, amended: with a non-negative rate, `GetCurrentBill(v)` evaluated at `t1` is at most
`GetCurrentBill(v)` evaluated at `t2` on the same state whenever `t1 <= t2` and the bill
`rate * (elapsed + settled)` lies in the range of `int64_t` at both instants; this holds for every
vehicle, in particular for every `v` that is active. -/
theorem GetCurrentBill_mono (tps : Nat) (p : Parking) (v : VehiclePlate) (t1 t2 : TimePoint)
    (hrate : 0 ≤ p.cost_per_second_) (ht : t1 ≤ t2)
    (h1 : inInt64 (p.cost_per_second_
      * (activeElapsedSeconds tps p t1 v + settledSeconds tps p v)))
    (h2 : inInt64 (p.cost_per_second_
      * (activeElapsedSeconds tps p t2 v + settledSeconds tps p v))) :
    (GetCurrentBill tps p t1 v).1 ≤ (GetCurrentBill tps p t2 v).1 := by
  rw [GetCurrentBill_fst, GetCurrentBill_fst, wrap64_of_inInt64 h1, wrap64_of_inInt64 h2]
  apply Int.mul_le_mul_of_nonneg_left _ hrate
  have hs : activeElapsedSeconds tps p t1 v ≤ activeElapsedSeconds tps p t2 v := by
    unfold activeElapsedSeconds
    cases p.now_parked_.lookup v with
    | none => exact le_refl _
    | some s => exact duration_cast_seconds_mono tps (Int.sub_le_sub_right ht s)
  omega

/-- Witness of C12: plate A, parked at tick 10 at rate 10, owes no more at tick 40 than at tick
50. -/
theorem GetCurrentBill_mono_witness :
    plateA ∈ ledgerAfterFirstPark.now_parked_ ∧
    (GetCurrentBill 1 ledgerAfterFirstPark 40 plateA).1
      ≤ (GetCurrentBill 1 ledgerAfterFirstPark 50 plateA).1 :=
  ⟨by decide,
    GetCurrentBill_mono 1 ledgerAfterFirstPark plateA 40 50 (by decide) (by decide) (by decide)
      (by decide)⟩

theorem lookup_getD_EndPeriodAndGetBills (tps : Nat) (p : Parking) (now : TimePoint)
    (v : VehiclePlate) :
    ((EndPeriodAndGetBills tps p now).1.lookup v).getD 0 = (GetCurrentBill tps p now v).1 := by
  rw [EndPeriodAndGetBills_lookup, GetCurrentBill_fst]
  by_cases hc : settledSeconds tps p v ≠ 0 ∨ (p.now_parked_.lookup v).isSome = true
  · rw [if_pos hc]
    simp only [Option.getD_some]
    congr 1
    ring
  · rw [if_neg hc]
    have h0 : settledSeconds tps p v = 0 := by
      by_contra h
      exact hc (Or.inl h)
    have hn : p.now_parked_.lookup v = none := by
      cases hl : p.now_parked_.lookup v with
      | none => rfl
      | some s => exact absurd (Or.inr (by simp [hl])) hc
    simp [h0, activeElapsedSeconds, hn, wrap64_zero]

/-- C18: the amount `EndPeriodAndGetBills` called at `now` reports for `v` (taken as `0` when `v`
is absent from the returned map) is `GetCurrentBill(v)` evaluated at `now` on the state just
before the call. -/
theorem EndPeriodAndGetBills_reports_current_bill (tps : Nat) (p : Parking) (now : TimePoint)
    (v : VehiclePlate) :
    ((EndPeriodAndGetBills tps p now).1.lookup v).getD 0 = (GetCurrentBill tps p now v).1 :=
  lookup_getD_EndPeriodAndGetBills tps p now v

/-- C19: right after `EndPeriodAndGetBills` called at `now`, `GetCurrentBill(v)` evaluated at the
same `now` is `0` for every vehicle, active or not. -/
theorem GetCurrentBill_after_EndPeriodAndGetBills (tps : Nat) (p : Parking) (now : TimePoint)
    (v : VehiclePlate) :
    (GetCurrentBill tps (EndPeriodAndGetBills tps p now).2 now v).1 = 0 := by
  rw [GetCurrentBill_fst]
  have hs : settledSeconds tps (EndPeriodAndGetBills tps p now).2 v = 0 := by
    unfold settledSeconds
    rw [EndPeriodAndGetBills_complete_parks, AList.lookup_empty]
  have ha : activeElapsedSeconds tps (EndPeriodAndGetBills tps p now).2 now v = 0 := by
    unfold activeElapsedSeconds
    rw [EndPeriodAndGetBills_now_parked]
    by_cases h : (p.now_parked_.lookup v).isSome = true
    · simp [h, duration_cast_seconds]
    · simp [h]
  rw [hs, ha]
  simp [wrap64_zero]

/-! ### The exception type -/

/-- C15, as stated, fails: `Park` of the active plate A and `Withdraw` of the never-parked plate B
end with the very same error value, so the caller cannot tell the two failures apart by it. -/
theorem Park_Withdraw_errors_not_distinct :
    (Park ledgerAfterFirstPark 20 plateA).1 = Except.error ParkingException.mk ∧
    (Withdraw 1 ledgerAfterFirstPark 20 plateB).1 = Except.error ParkingException.mk ∧
    (Park ledgerAfterFirstPark 20 plateA).1 = (Withdraw 1 ledgerAfterFirstPark 20 plateB).1 := by
  have hA : ledgerAfterFirstPark.now_parked_.lookup plateA = some 10 := by decide
  have hB : ledgerAfterFirstPark.now_parked_.lookup plateB = none := by decide
  rw [Park_of_lookup_some _ 20 plateA 10 hA, Withdraw_of_lookup_none 1 _ 20 plateB hB]
  exact ⟨rfl, rfl, rfl⟩

/-- C15, amended: `Park` rejects an active vehicle and `Withdraw` rejects a vehicle that is not
active with one and the same error, a `ParkingException`, which has a single value and carries no
kind. -/
theorem Park_Withdraw_same_error (tps : Nat) (p q : Parking) (t u : TimePoint)
    (v w : VehiclePlate) (hv : v ∈ p.now_parked_) (hw : w ∉ q.now_parked_) :
    (Park p t v).1 = Except.error ParkingException.mk ∧
    (Withdraw tps q u w).1 = Except.error ParkingException.mk ∧
    (Park p t v).1 = (Withdraw tps q u w).1 ∧
    (∀ e e' : ParkingException, e = e') := by
  obtain ⟨s, hs⟩ := Option.isSome_iff_exists.1 (AList.lookup_isSome.2 hv)
  have hq : q.now_parked_.lookup w = none := AList.lookup_eq_none.2 hw
  rw [Park_of_lookup_some p t v s hs, Withdraw_of_lookup_none tps q u w hq]
  exact ⟨rfl, rfl, rfl, fun _ _ => rfl⟩

/-- Witness of the amended C15: plate A is active and plate B is not in the ledger of `main` after
its first call. -/
theorem Park_Withdraw_same_error_witness :
    plateA ∈ ledgerAfterFirstPark.now_parked_ ∧ plateB ∉ ledgerAfterFirstPark.now_parked_ ∧
    (Park ledgerAfterFirstPark 20 plateA).1 = (Withdraw 1 ledgerAfterFirstPark 20 plateB).1 :=
  ⟨by decide, by decide,
    (Park_Withdraw_same_error 1 ledgerAfterFirstPark ledgerAfterFirstPark 20 20 plateA plateB
      (by decide) (by decide)).2.2.1⟩

end Parking

namespace VehiclePlate

/-! ### The order of plates -/

theorem opLess_iff (a b : VehiclePlate) : opLess a b = true ↔ lexKey a < lexKey b := by
  obtain ⟨⟨a0, a1, a2⟩, ad, ar⟩ := a
  obtain ⟨⟨b0, b1, b2⟩, bd, br⟩ := b
  simp only [opLess, tupleLess, arrayLess, AsTuple, lexKey, Prod.Lex.lt_iff]
  rcases lt_trichotomy a0 b0 with h | h | h
  · simp [h]
  · subst h
    rcases lt_trichotomy a1 b1 with h | h | h
    · simp [h]
    · subst h
      rcases lt_trichotomy a2 b2 with h | h | h
      · simp [h]
      · subst h
        rcases lt_trichotomy ad bd with h | h | h
        · simp [h]
        · subst h
          simp
        · simp [h, h.ne', not_lt_of_lt h]
      · simp [h, h.ne', not_lt_of_lt h]
    · simp [h, h.ne', not_lt_of_lt h]
  · simp [h, h.ne', not_lt_of_lt h]

theorem opEq_iff_fields (a b : VehiclePlate) :
    opEq a b = true ↔
      (a.letters_.1 = b.letters_.1 ∧ a.letters_.2.1 = b.letters_.2.1
        ∧ a.letters_.2.2 = b.letters_.2.2) ∧ a.digits_ = b.digits_ ∧ a.region_ = b.region_ := by
  simp [opEq, tupleEq, arrayEq, AsTuple, and_assoc]

theorem opEq_iff_eq (a b : VehiclePlate) : opEq a b = true ↔ a = b := by
  rw [opEq_iff_fields]
  obtain ⟨⟨a0, a1, a2⟩, ad, ar⟩ := a
  obtain ⟨⟨b0, b1, b2⟩, bd, br⟩ := b
  simp [and_assoc]

theorem lexKey_injective (a b : VehiclePlate) (h : lexKey a = lexKey b) : a = b := by
  obtain ⟨⟨a0, a1, a2⟩, ad, ar⟩ := a
  obtain ⟨⟨b0, b1, b2⟩, bd, br⟩ := b
  simp only [lexKey, EmbeddingLike.apply_eq_iff_eq, Prod.mk.injEq] at h
  obtain ⟨h0, h1, h2, h3, h4⟩ := h
  subst h0 h1 h2 h3 h4
  rfl

/-- C16: `operator==` holds exactly when the three letters, the digits and the region are equal;
`operator<` is irreflexive and transitive; and of `a < b`, `a == b`, `b < a` exactly one holds for
every two plates. -/
theorem comparison_strict_total_order (a b c : VehiclePlate) :
    (opEq a b = true ↔
      (a.letters_.1 = b.letters_.1 ∧ a.letters_.2.1 = b.letters_.2.1
        ∧ a.letters_.2.2 = b.letters_.2.2) ∧ a.digits_ = b.digits_ ∧ a.region_ = b.region_) ∧
    opLess a a = false ∧
    (opLess a b = true → opLess b c = true → opLess a c = true) ∧
    ((opLess a b = true ∧ opEq a b = false ∧ opLess b a = false) ∨
      (opLess a b = false ∧ opEq a b = true ∧ opLess b a = false) ∨
      (opLess a b = false ∧ opEq a b = false ∧ opLess b a = true)) := by
  refine ⟨opEq_iff_fields a b, ?_, ?_, ?_⟩
  · rw [← Bool.not_eq_true, opLess_iff]
    exact lt_irrefl _
  · rw [opLess_iff, opLess_iff, opLess_iff]
    exact lt_trans
  · simp only [← Bool.not_eq_true, opLess_iff, opEq_iff_eq]
    rcases lt_trichotomy (lexKey a) (lexKey b) with h | h | h
    · refine Or.inl ⟨h, ?_, not_lt_of_lt h⟩
      intro hab
      rw [hab] at h
      exact lt_irrefl _ h
    · have hab := lexKey_injective a b h
      subst hab
      exact Or.inr (Or.inl ⟨lt_irrefl _, rfl, lt_irrefl _⟩)
    · refine Or.inr (Or.inr ⟨not_lt_of_lt h, ?_, h⟩)
      intro hab
      rw [hab] at h
      exact lt_irrefl _ h

end VehiclePlate

namespace Parking

/-! ### Sequences of calls -/

theorem Park_now_parked_lookup (p : Parking) (t : TimePoint) (w v : VehiclePlate) :
    (Park p t w).2.now_parked_.lookup v =
      if v = w ∧ p.now_parked_.lookup w = none then some t else p.now_parked_.lookup v := by
  cases h : p.now_parked_.lookup w with
  | none =>
    rw [Park_of_lookup_none p t w h]
    simp only [lookup_insert_ite, and_true]
  | some s =>
    rw [Park_of_lookup_some p t w s h]
    simp

theorem Park_complete_parks (p : Parking) (t : TimePoint) (w : VehiclePlate) :
    (Park p t w).2.complete_parks_ = p.complete_parks_ := by
  unfold Park
  split <;> rfl

theorem Withdraw_now_parked_lookup (tps : Nat) (p : Parking) (t : TimePoint)
    (w v : VehiclePlate) :
    (Withdraw tps p t w).2.now_parked_.lookup v =
      if v = w then none else p.now_parked_.lookup v := by
  cases h : p.now_parked_.lookup w with
  | none =>
    rw [Withdraw_of_lookup_none tps p t w h]
    by_cases hv : v = w
    · subst hv
      simp [h]
    · simp [hv]
  | some s =>
    rw [Withdraw_of_lookup_some tps p t w s h]
    simp only [lookup_erase_ite]

theorem Withdraw_complete_parks_lookup (tps : Nat) (p : Parking) (t : TimePoint)
    (w v : VehiclePlate) :
    (Withdraw tps p t w).2.complete_parks_.lookup v =
      match p.now_parked_.lookup w with
      | some s =>
        if v = w then
          some ((p.complete_parks_.lookup w).getD 0
            + seconds_to_duration tps (duration_cast_seconds tps (t - s)))
        else p.complete_parks_.lookup v
      | none => p.complete_parks_.lookup v := by
  cases h : p.now_parked_.lookup w with
  | none => rw [Withdraw_of_lookup_none tps p t w h]
  | some s =>
    rw [Withdraw_of_lookup_some tps p t w s h]
    simp only [lookup_insert_ite]

theorem calls_cons (tps : Nat) (p : Parking) (c : Call) (cs : List Call) :
    calls tps p (c :: cs) = calls tps (call tps p c) cs := rfl

theorem calls_append (tps : Nat) (p : Parking) (cs ds : List Call) :
    calls tps p (cs ++ ds) = calls tps (calls tps p cs) ds := by
  unfold calls
  rw [List.foldl_append]

/-- A vehicle without an entry in either map. -/
theorem call_absent (tps : Nat) (p : Parking) (c : Call) (v : VehiclePlate)
    (hc : ∀ t, c ≠ Call.Park t v)
    (h : p.now_parked_.lookup v = none ∧ p.complete_parks_.lookup v = none) :
    (call tps p c).now_parked_.lookup v = none ∧
      (call tps p c).complete_parks_.lookup v = none := by
  obtain ⟨hn, hs⟩ := h
  cases c with
  | Park t w =>
    have hvw : v ≠ w := by
      intro hvw
      subst hvw
      exact hc t rfl
    simp only [call]
    rw [Park_now_parked_lookup, Park_complete_parks]
    simp [hvw, hn, hs]
  | Withdraw t w =>
    simp only [call]
    rw [Withdraw_now_parked_lookup, Withdraw_complete_parks_lookup]
    by_cases hvw : v = w
    · subst hvw
      simp [hn, hs]
    · refine ⟨by simp [hvw, hn], ?_⟩
      cases p.now_parked_.lookup w <;> simp [hvw, hs]
  | GetCurrentBill t w => exact ⟨hn, hs⟩
  | EndPeriodAndGetBills t =>
    simp only [call]
    rw [EndPeriodAndGetBills_now_parked, EndPeriodAndGetBills_complete_parks]
    simp [hn]

theorem calls_absent (tps : Nat) (v : VehiclePlate) :
    ∀ (cs : List Call) (p : Parking), (∀ c ∈ cs, ∀ t, c ≠ Call.Park t v) →
      (p.now_parked_.lookup v = none ∧ p.complete_parks_.lookup v = none) →
      (calls tps p cs).now_parked_.lookup v = none ∧
        (calls tps p cs).complete_parks_.lookup v = none
  | [], _, _, h => h
  | c :: cs, p, hc, h => by
    rw [calls_cons]
    exact calls_absent tps v cs (call tps p c)
      (fun d hd => hc d (List.mem_cons_of_mem c hd))
      (call_absent tps p c v (hc c (List.mem_cons_self c cs)) h)

/-- C11: when `Park(v)` is never called, `GetCurrentBill(v)` returns `0` after every prefix of
every sequence of `Park`, `Withdraw`, `GetCurrentBill` and `EndPeriodAndGetBills` calls (at
arbitrary instants) applied to a fresh ledger, and at every instant. -/
theorem GetCurrentBill_never_parked (tps : Nat) (rate : Int) (v : VehiclePlate)
    (cs : List Call) (hc : ∀ c ∈ cs, ∀ t, c ≠ Call.Park t v) (k : Nat) (now : TimePoint) :
    (GetCurrentBill tps (calls tps (Parking.new rate) (cs.take k)) now v).1 = 0 := by
  have h := calls_absent tps v (cs.take k) (Parking.new rate)
    (fun c hm => hc c (List.mem_of_mem_take hm))
    ⟨AList.lookup_empty v, AList.lookup_empty v⟩
  rw [GetCurrentBill_fst]
  simp [activeElapsedSeconds, settledSeconds, h.1, h.2, wrap64_zero]

/-- Witness of C11: plate C is never parked in the calls of `main`; after all of them its bill
at tick 90 is `0`. -/
theorem GetCurrentBill_never_parked_witness :
    (∀ c ∈ mainCalls, ∀ t, c ≠ Call.Park t plateC) ∧
    (GetCurrentBill 1 (calls 1 (Parking.new 10) (mainCalls.take 12)) 90 plateC).1 = 0 :=
  have h : ∀ c ∈ mainCalls, ∀ t, c ≠ Call.Park t plateC := by
    intro c hc t
    simp only [mainCalls, List.mem_cons, List.mem_singleton, List.not_mem_nil, or_false] at hc
    rcases hc with h | h | h | h | h | h | h | h | h | h | h | h <;> subst h <;>
      simp [plateA_ne_plateC, plateB_ne_plateC]
  ⟨h, GetCurrentBill_never_parked 1 10 plateC mainCalls h 12 90⟩

/-! ### Chronological sequences: the settled durations -/

theorem seconds_to_duration_cast_nonneg (tps : Nat) {d : Duration} (h : 0 ≤ d) :
    0 ≤ seconds_to_duration tps (duration_cast_seconds tps d) := by
  unfold seconds_to_duration duration_cast_seconds
  exact Int.mul_nonneg (Int.tdiv_nonneg h (Int.ofNat_nonneg tps)) (Int.ofNat_nonneg tps)

/-- One call at an instant not earlier than `T` keeps: every start instant is at most the instant
of the last call, and every settled duration is non-negative. -/
theorem call_chronological (tps : Nat) (p : Parking) (c : Call) (T : TimePoint)
    (hT : T ≤ c.now)
    (hn : ∀ v s, p.now_parked_.lookup v = some s → s ≤ T)
    (hs : ∀ v d, p.complete_parks_.lookup v = some d → 0 ≤ d) :
    (∀ v s, (call tps p c).now_parked_.lookup v = some s → s ≤ c.now) ∧
    (∀ v d, (call tps p c).complete_parks_.lookup v = some d → 0 ≤ d) := by
  cases c with
  | Park t w =>
    simp only [call, Call.now] at hT ⊢
    refine ⟨fun v s h => ?_, fun v d h => ?_⟩
    · rw [Park_now_parked_lookup] at h
      split at h
      · have : t = s := Option.some.inj h
        exact this ▸ le_refl t
      · exact le_trans (hn v s h) hT
    · rw [Park_complete_parks] at h
      exact hs v d h
  | Withdraw t w =>
    simp only [call, Call.now] at hT ⊢
    refine ⟨fun v s h => ?_, fun v d h => ?_⟩
    · rw [Withdraw_now_parked_lookup] at h
      split at h
      · exact Option.noConfusion h
      · exact le_trans (hn v s h) hT
    · rw [Withdraw_complete_parks_lookup] at h
      cases hw : p.now_parked_.lookup w with
      | none =>
        rw [hw] at h
        exact hs v d h
      | some b =>
        rw [hw] at h
        simp only [] at h
        split at h
        · have hd : (p.complete_parks_.lookup w).getD 0
              + seconds_to_duration tps (duration_cast_seconds tps (t - b)) = d :=
            Option.some.inj h
          have hb : b ≤ t := le_trans (hn w b hw) hT
          have h1 : 0 ≤ seconds_to_duration tps (duration_cast_seconds tps (t - b)) :=
            seconds_to_duration_cast_nonneg tps (Int.sub_nonneg_of_le hb)
          have h2 : 0 ≤ (p.complete_parks_.lookup w).getD 0 := by
            cases ho : p.complete_parks_.lookup w with
            | none => exact le_refl _
            | some o => exact hs w o ho
          rw [← hd]
          exact Int.add_nonneg h2 h1
        · exact hs v d h
  | GetCurrentBill t w =>
    simp only [call, Call.now] at hT ⊢
    exact ⟨fun v s h => le_trans (hn v s h) hT, hs⟩
  | EndPeriodAndGetBills t =>
    simp only [call, Call.now] at hT ⊢
    refine ⟨fun v s h => ?_, fun v d h => ?_⟩
    · rw [EndPeriodAndGetBills_now_parked] at h
      split at h
      · have : t = s := Option.some.inj h
        exact this ▸ le_refl t
      · exact Option.noConfusion h
    · rw [EndPeriodAndGetBills_complete_parks, AList.lookup_empty] at h
      exact Option.noConfusion h

theorem calls_chronological (tps : Nat) :
    ∀ (cs : List Call) (p : Parking) (T : TimePoint), chronologicalFrom T cs = true →
      (∀ v s, p.now_parked_.lookup v = some s → s ≤ T) →
      (∀ v d, p.complete_parks_.lookup v = some d → 0 ≤ d) →
      (∀ v s, (calls tps p cs).now_parked_.lookup v = some s → s ≤ lastNow T cs) ∧
      (∀ v d, (calls tps p cs).complete_parks_.lookup v = some d → 0 ≤ d)
  | [], _, _, _, hn, hs => ⟨hn, hs⟩
  | c :: cs, p, T, hc, hn, hs => by
    simp only [chronologicalFrom, Bool.and_eq_true, decide_eq_true_eq] at hc
    have h := call_chronological tps p c T hc.1 hn hs
    exact calls_chronological tps cs (call tps p c) c.now hc.2 h.1 h.2

theorem chronologicalFrom_of_chronological :
    ∀ cs : List Call, chronological cs = true →
      ∃ T, chronologicalFrom T cs = true
  | [], _ => ⟨0, rfl⟩
  | c :: cs, h => ⟨c.now, by
      simp only [chronologicalFrom, Bool.and_eq_true, decide_eq_true_eq]
      exact ⟨le_refl _, h⟩⟩

theorem chronologicalFrom_append (c : Call) :
    ∀ (cs : List Call) (T : TimePoint), chronologicalFrom T (cs ++ [c]) = true →
      chronologicalFrom T cs = true ∧ lastNow T cs ≤ c.now
  | [], T, h => by
    simp only [List.nil_append, chronologicalFrom, Bool.and_eq_true, decide_eq_true_eq] at h
    exact ⟨rfl, h.1⟩
  | d :: cs, T, h => by
    simp only [List.cons_append, chronologicalFrom, Bool.and_eq_true, decide_eq_true_eq] at h
    have ih := chronologicalFrom_append c cs d.now h.2
    simp only [chronologicalFrom, Bool.and_eq_true, decide_eq_true_eq, lastNow]
    exact ⟨⟨h.1, ih.1⟩, ih.2⟩

/-- C13: in every state reached from a fresh ledger by calls at non-decreasing instants, every
entry of the settled map holds a non-negative duration. -/
theorem settled_nonneg (tps : Nat) (rate : Int) (cs : List Call)
    (hc : chronological cs = true) (v : VehiclePlate) (d : Duration)
    (hd : (calls tps (Parking.new rate) cs).complete_parks_.lookup v = some d) : 0 ≤ d := by
  obtain ⟨T, hT⟩ := chronologicalFrom_of_chronological cs hc
  have h := calls_chronological tps cs (Parking.new rate) T hT
    (fun v s h => by
      rw [show (Parking.new rate).now_parked_ = ∅ from rfl, AList.lookup_empty] at h
      exact Option.noConfusion h)
    (fun v d h => by
      rw [show (Parking.new rate).complete_parks_ = ∅ from rfl, AList.lookup_empty] at h
      exact Option.noConfusion h)
  exact h.2 v d hd

/-- Witness of C13: after the first ten calls of `main` plate B has the settled duration 30. -/
theorem settled_nonneg_witness :
    chronological (mainCalls.take 10) = true ∧
    (calls 1 (Parking.new 10) (mainCalls.take 10)).complete_parks_.lookup plateB = some 30 ∧
    (0 : Int) ≤ 30 :=
  ⟨by decide, by decide,
    settled_nonneg 1 10 (mainCalls.take 10) (by decide) plateB 30 (by decide)⟩

theorem Withdraw_settledDuration_le (tps : Nat) (p : Parking) (t : TimePoint)
    (v w : VehiclePlate) (hn : ∀ s, p.now_parked_.lookup v = some s → s ≤ t) :
    settledDuration p w ≤ settledDuration (Withdraw tps p t v).2 w := by
  unfold settledDuration
  rw [Withdraw_complete_parks_lookup]
  cases hv : p.now_parked_.lookup v with
  | none => exact le_refl _
  | some s =>
    simp only []
    by_cases hwv : w = v
    · subst hwv
      rw [if_pos rfl]
      have h1 : 0 ≤ seconds_to_duration tps (duration_cast_seconds tps (t - s)) :=
        seconds_to_duration_cast_nonneg tps (Int.sub_nonneg_of_le (hn s hv))
      simp only [Option.getD_some]
      exact Int.le_add_of_nonneg_right h1
    · rw [if_neg hwv]

/-- C14: in a state reached from a fresh ledger by calls at non-decreasing instants, a `Park` or
a `Withdraw` at an instant not earlier than the previous call leaves the settled duration of every
vehicle `w` (taken as `0` when `w` has no settled entry), and so its whole seconds, at least as
large as before the call. -/
theorem settledDuration_nondecreasing (tps : Nat) (rate : Int) (cs : List Call) (c : Call)
    (hc : chronological (cs ++ [c]) = true)
    (hk : (∃ t v, c = Call.Park t v) ∨ (∃ t v, c = Call.Withdraw t v)) (w : VehiclePlate) :
    settledDuration (calls tps (Parking.new rate) cs) w
      ≤ settledDuration (calls tps (Parking.new rate) (cs ++ [c])) w ∧
    duration_cast_seconds tps (settledDuration (calls tps (Parking.new rate) cs) w)
      ≤ duration_cast_seconds tps
          (settledDuration (calls tps (Parking.new rate) (cs ++ [c])) w) := by
  have hle : settledDuration (calls tps (Parking.new rate) cs) w
      ≤ settledDuration (calls tps (Parking.new rate) (cs ++ [c])) w := by
    obtain ⟨T, hT⟩ := chronologicalFrom_of_chronological (cs ++ [c]) hc
    obtain ⟨hcs, hlast⟩ := chronologicalFrom_append c cs T hT
    have h := calls_chronological tps cs (Parking.new rate) T hcs
      (fun v s h => by
        rw [show (Parking.new rate).now_parked_ = ∅ from rfl, AList.lookup_empty] at h
        exact Option.noConfusion h)
      (fun v d h => by
        rw [show (Parking.new rate).complete_parks_ = ∅ from rfl, AList.lookup_empty] at h
        exact Option.noConfusion h)
    rw [calls_append]
    rcases hk with ⟨t, v, hcv⟩ | ⟨t, v, hcv⟩
    · subst hcv
      show _ ≤ settledDuration (Park (calls tps (Parking.new rate) cs) t v).2 w
      unfold settledDuration
      rw [Park_complete_parks]
    · subst hcv
      show _ ≤ settledDuration (Withdraw tps (calls tps (Parking.new rate) cs) t v).2 w
      exact Withdraw_settledDuration_le tps _ t v w
        (fun s hs => le_trans (h.1 v s hs) hlast)
  exact ⟨hle, duration_cast_seconds_mono tps hle⟩

/-- Witness of C14: the tenth call of `main`, `Withdraw(B)` at 50, after the first nine. -/
theorem settledDuration_nondecreasing_witness :
    chronological (mainCalls.take 9 ++ [Call.Withdraw 50 plateB]) = true ∧
    settledDuration (calls 1 (Parking.new 10) (mainCalls.take 9)) plateB
      ≤ settledDuration (calls 1 (Parking.new 10)
          (mainCalls.take 9 ++ [Call.Withdraw 50 plateB])) plateB :=
  ⟨by decide,
    (settledDuration_nondecreasing 1 10 (mainCalls.take 9) (Call.Withdraw 50 plateB)
      (by decide) (Or.inr ⟨50, plateB, rfl⟩) plateB).1⟩

/-! ### Settled durations are whole seconds -/

theorem duration_cast_seconds_add_whole (tps : Nat) (m : Int) (x : Duration) :
    duration_cast_seconds tps
        (seconds_to_duration tps m + seconds_to_duration tps (duration_cast_seconds tps x))
      = duration_cast_seconds tps (seconds_to_duration tps m) + duration_cast_seconds tps x := by
  by_cases hz : (tps : Int) = 0
  · simp [duration_cast_seconds, hz]
  · unfold duration_cast_seconds seconds_to_duration
    rw [← Int.add_mul, Int.mul_tdiv_cancel _ hz, Int.mul_tdiv_cancel _ hz]

/-- One call keeps every settled duration a whole number of seconds. -/
theorem call_whole_seconds (tps : Nat) (p : Parking) (c : Call)
    (hs : ∀ v d, p.complete_parks_.lookup v = some d → ∃ k, d = seconds_to_duration tps k) :
    ∀ v d, (call tps p c).complete_parks_.lookup v = some d →
      ∃ k, d = seconds_to_duration tps k := by
  intro v d h
  cases c with
  | Park t w =>
    simp only [call] at h
    rw [Park_complete_parks] at h
    exact hs v d h
  | Withdraw t w =>
    simp only [call] at h
    rw [Withdraw_complete_parks_lookup] at h
    cases hw : p.now_parked_.lookup w with
    | none =>
      rw [hw] at h
      exact hs v d h
    | some b =>
      rw [hw] at h
      simp only [] at h
      split at h
      · have hd := Option.some.inj h
        cases ho : p.complete_parks_.lookup w with
        | none =>
          rw [ho] at hd
          exact ⟨duration_cast_seconds tps (t - b), by
            rw [← hd]
            simp⟩
        | some o =>
          rw [ho] at hd
          obtain ⟨m, hm⟩ := hs w o ho
          exact ⟨m + duration_cast_seconds tps (t - b), by
            rw [← hd, hm]
            simp only [Option.getD_some, seconds_to_duration]
            ring⟩
      · exact hs v d h
  | GetCurrentBill t w => exact hs v d h
  | EndPeriodAndGetBills t =>
    simp only [call] at h
    rw [EndPeriodAndGetBills_complete_parks, AList.lookup_empty] at h
    exact Option.noConfusion h

theorem calls_whole_seconds (tps : Nat) :
    ∀ (cs : List Call) (p : Parking),
      (∀ v d, p.complete_parks_.lookup v = some d → ∃ k, d = seconds_to_duration tps k) →
      ∀ v d, (calls tps p cs).complete_parks_.lookup v = some d →
        ∃ k, d = seconds_to_duration tps k
  | [], _, hs => hs
  | c :: cs, p, hs => calls_whole_seconds tps cs (call tps p c) (call_whole_seconds tps p c hs)

theorem new_whole_seconds (tps : Nat) (rate : Int) :
    ∀ v d, (Parking.new rate).complete_parks_.lookup v = some d →
      ∃ k, d = seconds_to_duration tps k := by
  intro v d h
  rw [show (Parking.new rate).complete_parks_ = ∅ from rfl, AList.lookup_empty] at h
  exact Option.noConfusion h

theorem Withdraw_keeps_GetCurrentBill (tps : Nat) (p : Parking) (now : TimePoint)
    (v w : VehiclePlate)
    (hs : ∀ u d, p.complete_parks_.lookup u = some d → ∃ k, d = seconds_to_duration tps k) :
    (GetCurrentBill tps (Withdraw tps p now v).2 now w).1 = (GetCurrentBill tps p now w).1 := by
  rw [GetCurrentBill_fst, GetCurrentBill_fst]
  cases hv : p.now_parked_.lookup v with
  | none => rw [Withdraw_of_lookup_none tps p now v hv]
  | some s =>
    have hcost : (Withdraw tps p now v).2.cost_per_second_ = p.cost_per_second_ := by
      rw [Withdraw_of_lookup_some tps p now v s hv]
    rw [hcost]
    congr 1
    unfold activeElapsedSeconds settledSeconds
    rw [Withdraw_now_parked_lookup, Withdraw_complete_parks_lookup, hv]
    by_cases hwv : w = v
    · subst hwv
      simp only [if_pos, hv]
      cases ho : p.complete_parks_.lookup w with
      | none =>
        have h0 := duration_cast_seconds_add_whole tps 0 (now - s)
        simp only [seconds_to_duration, Int.zero_mul] at h0
        simp only [Option.getD_none, seconds_to_duration]
        rw [h0]
        simp [duration_cast_seconds]
      | some o =>
        obtain ⟨m, hm⟩ := hs w o ho
        subst hm
        simp only [Option.getD_some]
        rw [duration_cast_seconds_add_whole]
        ring
    · simp only [if_neg hwv]

/-- C20: in every state reached from a fresh ledger, for every active vehicle `v`, every vehicle
`w` and every instant `now`, `Withdraw(v)` at `now` succeeds and `GetCurrentBill(w)` evaluated at
`now` after it equals `GetCurrentBill(w)` evaluated at `now` before it. -/
theorem Withdraw_keeps_current_bills (tps : Nat) (rate : Int) (cs : List Call)
    (v w : VehiclePlate) (now : TimePoint)
    (hv : v ∈ (calls tps (Parking.new rate) cs).now_parked_) :
    (Withdraw tps (calls tps (Parking.new rate) cs) now v).1 = Except.ok () ∧
    (GetCurrentBill tps (Withdraw tps (calls tps (Parking.new rate) cs) now v).2 now w).1
      = (GetCurrentBill tps (calls tps (Parking.new rate) cs) now w).1 := by
  refine ⟨?_, Withdraw_keeps_GetCurrentBill tps _ now v w
    (calls_whole_seconds tps cs _ (new_whole_seconds tps rate))⟩
  obtain ⟨s, hs⟩ := Option.isSome_iff_exists.1 (AList.lookup_isSome.2 hv)
  rw [Withdraw_of_lookup_some tps _ now v s hs]

/-- Witness of C20: after the first nine calls of `main` plate B is active; withdrawing it at 50
leaves its bill at 50 as it was. -/
theorem Withdraw_keeps_current_bills_witness :
    plateB ∈ (calls 1 (Parking.new 10) (mainCalls.take 9)).now_parked_ ∧
    (GetCurrentBill 1 (Withdraw 1 (calls 1 (Parking.new 10) (mainCalls.take 9)) 50 plateB).2 50
        plateB).1
      = (GetCurrentBill 1 (calls 1 (Parking.new 10) (mainCalls.take 9)) 50 plateB).1 :=
  ⟨by decide,
    (Withdraw_keeps_current_bills 1 10 (mainCalls.take 9) plateB plateB 50 (by decide)).2⟩

/-! ### Billing conservation -/

end Parking
